import Mathlib

/-!
Verification of the substitute-teacher resolution core (`findSubstitutes` and its
helpers in `server.js`) against its specification.

The relational store is modelled as lists of rows; the five SQL queries of the
core become pure list computations.  String primitives are given char-level
structural definitions so that every result is kernel-computable: MySQL
`LOWER`/`UPPER` are `strToLower`/`strToUpper`, MySQL `TRIM` (which strips
spaces only) is `sqlTrim`, the JavaScript `String.prototype.trim` is `jsTrim`,
and string comparison (`ORDER BY` on names, default byte-wise collation) is
`strLe`.  SQL `ORDER BY` is a stable insertion sort (`List.insertionSort`),
matching the stable `Array.prototype.sort` of the JavaScript runtime; row
order of unsorted intermediate results is table order, with joins in
nested-loop order.
-/

namespace TeacherSub

/-! ## String helpers -/

/-- MySQL `TRIM`: strips space characters (0x20) from both ends. -/
def sqlTrim (s : String) : String :=
  ⟨((s.data.dropWhile (· == ' ')).reverse.dropWhile (· == ' ')).reverse⟩

/-- JavaScript `String.prototype.trim`: strips whitespace from both ends. -/
def jsTrim (s : String) : String :=
  ⟨((s.data.dropWhile Char.isWhitespace).reverse.dropWhile Char.isWhitespace).reverse⟩

/-- JavaScript `String.prototype.toUpperCase` / SQL `UPPER` (ASCII). -/
def strToUpper (s : String) : String := ⟨s.data.map Char.toUpper⟩

/-- JavaScript `String.prototype.toLowerCase` / SQL `LOWER` (ASCII). -/
def strToLower (s : String) : String := ⟨s.data.map Char.toLower⟩

/-- JavaScript `String.prototype.slice(0, n)`. -/
def strTake (s : String) (n : Nat) : String := ⟨s.data.take n⟩

/-- Whether `pat` is a prefix of `l`. -/
def isPrefixList : List Char → List Char → Bool
  | [], _ => true
  | _ :: _, [] => false
  | a :: as, b :: bs => a == b && isPrefixList as bs

/-- Scanner for `splitOnStr`: `fuel` bounds the number of steps (the caller
passes the length of the list, which suffices since every step consumes at
least one character). -/
def splitOnAux (sep : List Char) : Nat → List Char → List Char → List (List Char)
  | _, [], acc => [acc.reverse]
  | 0, rest, acc => [acc.reverse ++ rest]
  | fuel + 1, c :: cs, acc =>
    if isPrefixList sep (c :: cs) then
      acc.reverse :: splitOnAux sep fuel ((c :: cs).drop sep.length) []
    else
      splitOnAux sep fuel cs (c :: acc)

/-- JavaScript `String.prototype.split(sep)` for a non-empty literal separator, splitting
at leftmost non-overlapping occurrences (an empty separator yields `[s]`,
which is also the SQL convention used here). -/
def splitOnStr (s sep : String) : List String :=
  if sep == "" then [s]
  else (splitOnAux sep.data s.data.length s.data []).map fun l => ⟨l⟩

/-- Byte-wise lexicographic `≤` on char lists (code-point order). -/
def listLe : List Char → List Char → Bool
  | [], _ => true
  | _ :: _, [] => false
  | a :: as, b :: bs =>
    if a.toNat = b.toNat then listLe as bs else decide (a.toNat < b.toNat)

/-- Byte-wise lexicographic `≤` on strings: the default collation used for the
`ORDER BY ... s.teacher_name` tie-break. -/
def strLe (a b : String) : Bool := listLe a.data b.data

/-- SQL `s LIKE '%pat%'` for a literal `pat`: occurrence test via `splitOnStr`. -/
def containsSubstr (s pat : String) : Bool :=
  (splitOnStr s pat).length != 1

/-- MySQL `SUBSTRING_INDEX(s, delim, 1)`: prefix of `s` before the first
occurrence of `delim`; all of `s` when `delim` does not occur. -/
def substringIndex1 (s delim : String) : String :=
  (splitOnStr s delim).headD ""

/-- The helper `normalizeDay` from `server.js`: falsy input passes through; otherwise trim
and upper-case, map the four Thursday spellings to `"THUR"`, else keep the
first three characters. -/
def normalizeDay (d : String) : String :=
  if d == "" then d
  else if ["THU", "THUR", "THURS", "THURSDAY"].contains (strToUpper (jsTrim d)) then "THUR"
  else strTake (strToUpper (jsTrim d)) 3

/-- A character allowed by the regex `/^[A-Z0-9_]+$/`. -/
def isCodeChar (c : Char) : Bool :=
  ('A' ≤ c && c ≤ 'Z') || ('0' ≤ c && c ≤ '9') || c == '_'

/-- A character allowed by the regex class `[A-Za-z0-9_]`. -/
def isWordChar (c : Char) : Bool :=
  ('A' ≤ c && c ≤ 'Z') || ('a' ≤ c && c ≤ 'z') || ('0' ≤ c && c ≤ '9') || c == '_'

/-- The test `/^[A-Z0-9_]+$/.test s`. -/
def isValidCode (s : String) : Bool :=
  !(s == "") && s.data.all isCodeChar

/-- The capture of `/^\s*([A-Za-z0-9_]+)/` on `s` (empty when the regex fails). -/
def leadingWordRun (s : String) : String :=
  ⟨(s.data.dropWhile Char.isWhitespace).takeWhile isWordChar⟩

/-- The helper `extractSubjectCode` from `server.js`. -/
def extractSubjectCode (activityDescription : String) : String :=
  if activityDescription == "" then "N/A"
  else
    let s := jsTrim activityDescription
    let first := (splitOnStr s " - ").headD ""
    if first != "" && isValidCode (strToUpper (jsTrim first)) then strToUpper (jsTrim first)
    else if leadingWordRun s != "" then strToUpper (leadingWordRun s)
    else "N/A"

/-! ## Data model (spec §3): rows of the five tables -/

/-- A row of `teacher_attendance`. -/
structure AttendanceRow where
  teacher_id : String
  teacher_name : String
  attendance : String
deriving DecidableEq

/-- A row of `teacher_timetable`. -/
structure TimetableRow where
  teacher_id : String
  day_of_week : String
  slot_id : Nat
  activity_description : String
  room_location : String
  is_free : Bool
deriving DecidableEq

/-- A row of `time_slots`. -/
structure TimeSlotRow where
  slot_id : Nat
  time_range : String
deriving DecidableEq

/-- A row of `teacher_subject_assignment`. -/
structure SubjectAssignmentRow where
  teacher_id : String
  subject_code : String
deriving DecidableEq

/-- A row of `subjects`. -/
structure SubjectRow where
  subject_code : String
  subject_name : String
deriving DecidableEq

/-- The relational store. -/
structure DB where
  teacher_attendance : List AttendanceRow
  teacher_timetable : List TimetableRow
  time_slots : List TimeSlotRow
  teacher_subject_assignment : List SubjectAssignmentRow
  subjects : List SubjectRow
deriving DecidableEq

/-! ## Result shapes -/

/-- One entry of a coverage slot's `available_substitutes` list. -/
structure Candidate where
  substitute_id : String
  substitute_name : String
  priority : String
  subjects_codes : String
  subjects_detail : String
deriving DecidableEq

/-- One entry of the report's `schedule` list. -/
structure CoverageSlot where
  slot_id : Nat
  slot : String
  class_info : String
  subject : String
  room : Option String
  is_lab : Bool
  available_substitutes : List Candidate
deriving DecidableEq

/-- The value returned by `findSubstitutes`. -/
structure Report where
  absentName : String
  absentTeacherSubjectDetail : String
  schedule : List CoverageSlot
  note : Option String
deriving DecidableEq

/-! ## The queries -/

/-- Query `qAttendance`: attendance row for a case-insensitive id match, `LIMIT 1`. -/
def qAttendance (db : DB) (absentTeacherId : String) : List AttendanceRow :=
  (db.teacher_attendance.filter fun a =>
    strToLower a.teacher_id == strToLower absentTeacherId).take 1

/-- A row of the `subjects_agg` CTE. -/
structure SubjectsAggRow where
  teacher_id : String
  subjects_codes : String
  subjects_detail : String
deriving DecidableEq

/-- The `subjects_agg` CTE: assignments grouped by teacher id, with the
deduplicated, sorted, joined code list and `code - name` detail list.  A
`GROUP_CONCAT` over a non-empty group is non-null, so both strings are plain
strings here; `COALESCE(s.subject_name, '')` is the no-match branch of the
left join to `subjects`. -/
def subjectsAgg (db : DB) : List SubjectsAggRow :=
  ((db.teacher_subject_assignment.map (·.teacher_id)).dedup).map fun t =>
    let rows := db.teacher_subject_assignment.filter fun r => r.teacher_id == t
    let codes := String.intercalate ", "
      (List.insertionSort (fun a b => strLe a b = true) (rows.map (·.subject_code)).dedup)
    let details := String.intercalate " | "
      (List.insertionSort (fun a b => strLe a b = true)
        ((rows.flatMap fun r =>
          match db.subjects.filter (fun s => s.subject_code == r.subject_code) with
          | [] => [r.subject_code ++ " - "]
          | ms => ms.map fun m => r.subject_code ++ " - " ++ m.subject_name).dedup))
    ⟨t, codes, details⟩

/-- Query `qAbsentTeacherInfo`: the absent teacher's subject-detail summary
(`COALESCE(subjects_detail, subjects_codes, 'Subject(s) Not Assigned')`,
`LIMIT 1`). -/
def qAbsentTeacherInfo (db : DB) (absentTeacherId : String) : List String :=
  ((db.teacher_attendance.filter fun ta =>
      strToLower ta.teacher_id == strToLower absentTeacherId).flatMap fun ta =>
    match (subjectsAgg db).filter
        (fun sa => strToLower sa.teacher_id == strToLower ta.teacher_id) with
    | [] => ["Subject(s) Not Assigned"]
    | sas => sas.map (·.subjects_detail)).take 1

/-- A row of `qClasses` (also the derived table `c` inside `qSubs`). -/
structure ClassRow where
  absent_teacher_id : String
  day_of_week : String
  slot_id : Nat
  time_range : String
  class_to_cover : String
  room_location : String
  is_lab : Bool
deriving DecidableEq

/-- One selected row: timetable entry joined to its time slot. -/
def mkClassRow (tt : TimetableRow) (ts : TimeSlotRow) : ClassRow :=
  { absent_teacher_id := tt.teacher_id
    day_of_week := tt.day_of_week
    slot_id := tt.slot_id
    time_range := ts.time_range
    class_to_cover := tt.activity_description
    room_location := tt.room_location
    is_lab := containsSubstr (strToUpper tt.activity_description) "LAB" }

/-- The absent teacher's non-free timetable entries for the day (the `WHERE`
clause shared by `qClasses` and the derived table of `qSubs`). -/
def absentEntries (db : DB) (absentTeacherId targetDay : String) : List TimetableRow :=
  db.teacher_timetable.filter fun tt =>
    strToLower tt.teacher_id == strToLower absentTeacherId &&
    strToUpper tt.day_of_week == strToUpper targetDay &&
    !tt.is_free

/-- The rows of `qClasses` before `ORDER BY`: entries joined to `time_slots`. -/
def qClassesRaw (db : DB) (absentTeacherId targetDay : String) : List ClassRow :=
  (absentEntries db absentTeacherId targetDay).flatMap fun tt =>
    (db.time_slots.filter fun ts => ts.slot_id == tt.slot_id).map (mkClassRow tt)

/-- Ordering `ORDER BY tt.slot_id`. -/
def classLe (a b : ClassRow) : Prop := a.slot_id ≤ b.slot_id

instance : DecidableRel classLe := fun a b =>
  inferInstanceAs (Decidable (a.slot_id ≤ b.slot_id))

instance : IsTotal ClassRow classLe := ⟨fun a b => Nat.le_total a.slot_id b.slot_id⟩

instance : IsTrans ClassRow classLe := ⟨fun _ _ _ => Nat.le_trans⟩

/-- Query `qClasses`: classes to cover, ordered by slot id. -/
def qClasses (db : DB) (absentTeacherId targetDay : String) : List ClassRow :=
  List.insertionSort classLe (qClassesRaw db absentTeacherId targetDay)

/-- The `EXISTS` subquery: an explicit free row for this day and slot. -/
def hasFreeRow (db : DB) (day : String) (slotId : Nat) (teacherId : String) : Bool :=
  db.teacher_timetable.any fun tt =>
    strToLower tt.teacher_id == strToLower teacherId &&
    strToUpper tt.day_of_week == strToUpper day &&
    tt.slot_id == slotId &&
    tt.is_free

/-- The `NOT EXISTS` subquery's body: an explicit busy row for this day and slot. -/
def hasBusyRow (db : DB) (day : String) (slotId : Nat) (teacherId : String) : Bool :=
  db.teacher_timetable.any fun tt =>
    strToLower tt.teacher_id == strToLower teacherId &&
    strToUpper tt.day_of_week == strToUpper day &&
    tt.slot_id == slotId &&
    !tt.is_free

/-- A row of `qSubs`. -/
structure SubRow where
  absent_teacher_id : String
  slot_id : Nat
  time_range : String
  class_to_cover : String
  room_location : String
  substitute_teacher_id : String
  substitute_teacher_name : String
  subjects_codes : String
  subjects_detail : String
  substitution_priority : String
deriving DecidableEq

/-- One selected `qSubs` row for class `c`, present teacher `s` and subject
summary strings; the `CASE` expression computes the fitness tier. -/
def mkSubRow (db : DB) (c : ClassRow) (s : AttendanceRow) (codes detail : String) : SubRow :=
  { absent_teacher_id := c.absent_teacher_id
    slot_id := c.slot_id
    time_range := c.time_range
    class_to_cover := c.class_to_cover
    room_location := c.room_location
    substitute_teacher_id := s.teacher_id
    substitute_teacher_name := s.teacher_name
    subjects_codes := codes
    subjects_detail := detail
    substitution_priority :=
      if db.teacher_subject_assignment.any (fun tsa =>
          strToLower tsa.teacher_id == strToLower s.teacher_id &&
          strToUpper (sqlTrim tsa.subject_code) ==
            strToUpper (substringIndex1 c.class_to_cover " - "))
      then "BEST FIT (Same Subject)"
      else "GOOD FIT (Free, Any Subject)" }

/-- The rows of `qSubs` before `ORDER BY`: derived table `c`, inner join on the
present-and-different attendance rows, availability `WHERE` clause, left join
to `subjects_agg`. -/
def qSubsRaw (db : DB) (absentTeacherId targetDay : String) : List SubRow :=
  (qClassesRaw db absentTeacherId targetDay).flatMap fun c =>
    (db.teacher_attendance.filter fun s =>
        strToUpper (sqlTrim s.attendance) == "PRESENT" &&
        !(strToLower s.teacher_id == strToLower c.absent_teacher_id)).flatMap fun s =>
      if hasFreeRow db c.day_of_week c.slot_id s.teacher_id ||
          !hasBusyRow db c.day_of_week c.slot_id s.teacher_id then
        match (subjectsAgg db).filter
            (fun sa => strToLower sa.teacher_id == strToLower s.teacher_id) with
        | [] => [mkSubRow db c s "" ""]
        | sas => sas.map fun sa => mkSubRow db c s sa.subjects_codes sa.subjects_detail
      else []

/-- The rank of a tier in `ORDER BY (substitution_priority = 'BEST FIT (Same
Subject)') DESC`: best-fit rows first. -/
def bestRank (p : String) : Nat :=
  if p = "BEST FIT (Same Subject)" then 0 else 1

/-- The `ORDER BY` relation of `qSubs`: slot id, then tier, then candidate
name. -/
def subLe (a b : SubRow) : Prop :=
  a.slot_id < b.slot_id ∨
    (a.slot_id = b.slot_id ∧
      (bestRank a.substitution_priority < bestRank b.substitution_priority ∨
        (bestRank a.substitution_priority = bestRank b.substitution_priority ∧
          strLe a.substitute_teacher_name b.substitute_teacher_name = true)))

instance : DecidableRel subLe := fun _ _ =>
  inferInstanceAs (Decidable (_ ∨ _))

/-- Query `qSubs`: candidate rows for each slot, fully ordered. -/
def qSubs (db : DB) (absentTeacherId targetDay : String) : List SubRow :=
  List.insertionSort subLe (qSubsRaw db absentTeacherId targetDay)

/-! ## Grouping and schedule assembly

The JavaScript groups by the template string `slot_id + "|" + class_to_cover`.
A decimal slot id contains no `|`, so two keys coincide exactly when both the
slot ids and the description strings coincide; the key is modelled as the pair
`(slot_id, class_to_cover)`. -/

/-- First-occurrence grouping of the class rows, as done by the insertion-order
`Map`: a row whose key was already seen is dropped. -/
def dedupByKey : List ClassRow → List (Nat × String) → List ClassRow
  | [], _ => []
  | c :: cs, seen =>
    if (c.slot_id, c.class_to_cover) ∈ seen then dedupByKey cs seen
    else c :: dedupByKey cs ((c.slot_id, c.class_to_cover) :: seen)

/-- The object pushed onto `available_substitutes`. -/
def mkCandidate (s : SubRow) : Candidate :=
  { substitute_id := s.substitute_teacher_id
    substitute_name := s.substitute_teacher_name
    priority := s.substitution_priority
    subjects_codes := s.subjects_codes
    subjects_detail := s.subjects_detail }

/-- The candidate rows attached to the slot keyed by class row `c`, in `subs`
order. -/
def slotSubs (subs : List SubRow) (c : ClassRow) : List Candidate :=
  (subs.filter fun s =>
    s.slot_id == c.slot_id && s.class_to_cover == c.class_to_cover).map mkCandidate

/-- The coverage slot seeded by class row `c`. -/
def mkSlot (subs : List SubRow) (c : ClassRow) : CoverageSlot :=
  { slot_id := c.slot_id
    slot := c.time_range
    class_info := c.class_to_cover
    subject := extractSubjectCode c.class_to_cover
    room := if c.room_location = "" then none else some c.room_location
    is_lab := c.is_lab
    available_substitutes := slotSubs subs c }

/-- The final `sort((a, b) => a.slot_id - b.slot_id)`. -/
def slotLe (a b : CoverageSlot) : Prop := a.slot_id ≤ b.slot_id

instance : DecidableRel slotLe := fun a b =>
  inferInstanceAs (Decidable (a.slot_id ≤ b.slot_id))

instance : IsTotal CoverageSlot slotLe := ⟨fun a b => Nat.le_total a.slot_id b.slot_id⟩

instance : IsTrans CoverageSlot slotLe := ⟨fun _ _ _ => Nat.le_trans⟩

/-- The `byKey` grouping and final sort of `findSubstitutes`. -/
def buildSchedule (classes : List ClassRow) (subs : List SubRow) : List CoverageSlot :=
  List.insertionSort slotLe ((dedupByKey classes []).map (mkSlot subs))

/-! ## The resolution operation -/

/-- The external store: the row data together with an optional failure for each
of the four reads a resolution may issue. -/
structure Store where
  db : DB
  attendanceError : Option String
  absentInfoError : Option String
  classesError : Option String
  subsError : Option String

/-- Issue one read: the configured failure, or the rows. -/
def runQuery {α : Type} (err : Option String) (rows : α) : Except String α :=
  match err with
  | some e => .error e
  | none => .ok rows

/-- A store whose reads always succeed. -/
def pureStore (db : DB) : Store := ⟨db, none, none, none, none⟩

/-- The fallback `teacherRow.teacher_name || 'Teacher ID: ...'`. -/
def absentNameOf (absentTeacherId : String) (row : AttendanceRow) : String :=
  if row.teacher_name == "" then "Teacher ID: " ++ absentTeacherId else row.teacher_name

/-- The body of the `try` block: coverage query, empty-schedule short circuit,
candidate query, grouping. -/
def coveragePhase (st : Store) (absentTeacherId targetDay absentTeacherName
    absentTeacherSubjectDetail : String) : Except String Report :=
  match runQuery st.classesError (qClasses st.db absentTeacherId targetDay) with
  | .error e => .error e
  | .ok classes =>
    if classes.isEmpty then
      .ok { absentName := absentTeacherName, absentTeacherSubjectDetail,
            schedule := [], note := none }
    else
      match runQuery st.subsError (qSubs st.db absentTeacherId targetDay) with
      | .error e => .error e
      | .ok subs =>
        .ok { absentName := absentTeacherName, absentTeacherSubjectDetail,
              schedule := buildSchedule classes subs, note := none }

/-- The core operation `findSubstitutes` from `server.js`. -/
def findSubstitutes (st : Store) (absentTeacherIdRaw targetDayRaw : String) :
    Except String Report :=
  if jsTrim absentTeacherIdRaw == "" then .error "Invalid absent teacher ID."
  else if normalizeDay targetDayRaw == "" then .error "Invalid or missing day."
  else
    match runQuery st.attendanceError (qAttendance st.db (jsTrim absentTeacherIdRaw)) with
    | .error e => .error e
    | .ok attRows =>
      match attRows with
      | [] =>
        .ok { absentName := "Teacher ID: " ++ jsTrim absentTeacherIdRaw,
              absentTeacherSubjectDetail := "N/A", schedule := [],
              note := some "Teacher not found" }
      | teacherRow :: _ =>
        match runQuery st.absentInfoError
            (qAbsentTeacherInfo st.db (jsTrim absentTeacherIdRaw)) with
        | .error e => .error e
        | .ok absentInfo =>
          if !(strToUpper (jsTrim teacherRow.attendance) == "ABSENT") then
            .ok { absentName := absentNameOf (jsTrim absentTeacherIdRaw) teacherRow,
                  absentTeacherSubjectDetail := absentInfo.headD "N/A", schedule := [],
                  note := some "Teacher is not marked as ABSENT in attendance table" }
          else
            match coveragePhase st (jsTrim absentTeacherIdRaw) (normalizeDay targetDayRaw)
                (absentNameOf (jsTrim absentTeacherIdRaw) teacherRow)
                (absentInfo.headD "N/A") with
            | .ok result => .ok result
            | .error _ => .error "Database query failed during substitution search."

/-! ## A small concrete store, used to instantiate the theorems -/

/-- Example data: Alice (T1) is absent with two Monday classes; Bob (T2) is
present, explicitly free in slot 1 and without a row in slot 2; Carol (T3) is
present, without a row in slot 1 and busy in slot 2; Dave (T4) is neither
present nor absent. -/
def exdb : DB :=
  { teacher_attendance :=
      [⟨"T1", "Alice", "ABSENT"⟩, ⟨"T2", "Bob", "PRESENT"⟩,
       ⟨"T3", "Carol", "PRESENT"⟩, ⟨"T4", "Dave", "SICK"⟩],
    teacher_timetable :=
      [⟨"T1", "MON", 1, "MATH101 - Algebra", "R1", false⟩,
       ⟨"T1", "MON", 2, "PHY Lab work", "R2", false⟩,
       ⟨"T2", "MON", 1, "", "", true⟩,
       ⟨"T3", "MON", 2, "CHEM1 - Chem", "R3", false⟩],
    time_slots := [⟨1, "9-10"⟩, ⟨2, "10-11"⟩],
    teacher_subject_assignment := [⟨"T2", "MATH101"⟩, ⟨"T3", "CHEM1"⟩],
    subjects := [⟨"MATH101", "Algebra"⟩, ⟨"CHEM1", "Chem"⟩] }

/-- The first coverage slot of resolving `exdb` `"T1"` `"Monday"`. -/
def exSlot1 : CoverageSlot :=
  ⟨1, "9-10", "MATH101 - Algebra", "MATH101", some "R1", false,
   [⟨"T2", "Bob", "BEST FIT (Same Subject)", "MATH101", "MATH101 - Algebra"⟩,
    ⟨"T3", "Carol", "GOOD FIT (Free, Any Subject)", "CHEM1", "CHEM1 - Chem"⟩]⟩

/-- The second coverage slot of resolving `exdb` `"T1"` `"Monday"`. -/
def exSlot2 : CoverageSlot :=
  ⟨2, "10-11", "PHY Lab work", "PHY", some "R2", true,
   [⟨"T2", "Bob", "GOOD FIT (Free, Any Subject)", "MATH101", "MATH101 - Algebra"⟩]⟩

/-- The report of resolving `exdb` `"T1"` `"Monday"`. -/
def exReport : Report :=
  ⟨"Alice", "Subject(s) Not Assigned", [exSlot1, exSlot2], none⟩

/-! ## Order lemmas for the embedded collation -/

theorem listLe_total : ∀ as bs : List Char, listLe as bs = true ∨ listLe bs as = true
  | [], _ => Or.inl rfl
  | _ :: _, [] => Or.inr rfl
  | a :: as, b :: bs => by
    unfold listLe
    by_cases h : a.toNat = b.toNat
    · rw [if_pos h, if_pos h.symm]
      exact listLe_total as bs
    · rw [if_neg h, if_neg (Ne.symm h)]
      rcases Nat.lt_or_ge a.toNat b.toNat with h2 | h2
      · exact Or.inl (by simpa using h2)
      · exact Or.inr (by simp only [decide_eq_true_eq]; omega)

theorem listLe_trans : ∀ as bs cs : List Char,
    listLe as bs = true → listLe bs cs = true → listLe as cs = true
  | [], _, _ => fun _ _ => rfl
  | _ :: _, [], _ => fun h _ => absurd h (by simp [listLe])
  | _ :: _, _ :: _, [] => fun _ h => absurd h (by simp [listLe])
  | a :: as, b :: bs, c :: cs => by
    unfold listLe
    by_cases hab : a.toNat = b.toNat
    · rw [if_pos hab]
      by_cases hbc : b.toNat = c.toNat
      · rw [if_pos hbc, if_pos (hab.trans hbc)]
        exact listLe_trans as bs cs
      · rw [if_neg hbc, if_neg (fun h => hbc (hab.symm.trans h))]
        intro _ h2
        simp only [decide_eq_true_eq] at h2 ⊢
        omega
    · rw [if_neg hab]
      intro h1
      simp only [decide_eq_true_eq] at h1
      by_cases hbc : b.toNat = c.toNat
      · rw [if_pos hbc]
        intro _
        rw [if_neg (fun h => hab (h.trans hbc.symm))]
        simp only [decide_eq_true_eq]
        omega
      · rw [if_neg hbc]
        intro h2
        simp only [decide_eq_true_eq] at h2
        rw [if_neg (by omega : ¬a.toNat = c.toNat)]
        simp only [decide_eq_true_eq]
        omega

theorem strLe_total (a b : String) : strLe a b = true ∨ strLe b a = true :=
  listLe_total a.data b.data

theorem strLe_trans {a b c : String} (h1 : strLe a b = true) (h2 : strLe b c = true) :
    strLe a c = true :=
  listLe_trans a.data b.data c.data h1 h2

instance : IsTotal SubRow subLe := ⟨by
  intro a b
  unfold subLe
  rcases Nat.lt_trichotomy a.slot_id b.slot_id with h | h | h
  · exact Or.inl (Or.inl h)
  · rcases Nat.lt_trichotomy (bestRank a.substitution_priority)
        (bestRank b.substitution_priority) with h2 | h2 | h2
    · exact Or.inl (Or.inr ⟨h, Or.inl h2⟩)
    · rcases strLe_total a.substitute_teacher_name b.substitute_teacher_name with h3 | h3
      · exact Or.inl (Or.inr ⟨h, Or.inr ⟨h2, h3⟩⟩)
      · exact Or.inr (Or.inr ⟨h.symm, Or.inr ⟨h2.symm, h3⟩⟩)
    · exact Or.inr (Or.inr ⟨h.symm, Or.inl h2⟩)
  · exact Or.inr (Or.inl h)⟩

instance : IsTrans SubRow subLe := ⟨by
  intro a b c hab hbc
  unfold subLe at hab hbc ⊢
  rcases hab with h1 | ⟨e1, h1⟩ <;> rcases hbc with h2 | ⟨e2, h2⟩
  · exact Or.inl (by omega)
  · exact Or.inl (by omega)
  · exact Or.inl (by omega)
  · refine Or.inr ⟨by omega, ?_⟩
    rcases h1 with r1 | ⟨re1, n1⟩ <;> rcases h2 with r2 | ⟨re2, n2⟩
    · exact Or.inl (by omega)
    · exact Or.inl (by omega)
    · exact Or.inl (by omega)
    · exact Or.inr ⟨by omega, strLe_trans n1 n2⟩⟩

/-! ## Basic facts about the queries -/

theorem mem_absentEntries {db : DB} {tid day : String} {tt : TimetableRow} :
    tt ∈ absentEntries db tid day ↔
      tt ∈ db.teacher_timetable ∧ strToLower tt.teacher_id = strToLower tid ∧
      strToUpper tt.day_of_week = strToUpper day ∧ tt.is_free = false := by
  simp [absentEntries, List.mem_filter, Bool.and_eq_true, Bool.not_eq_true',
    beq_iff_eq, and_assoc]

theorem mem_qClassesRaw {db : DB} {tid day : String} {c : ClassRow} :
    c ∈ qClassesRaw db tid day ↔
      ∃ tt, tt ∈ absentEntries db tid day ∧
        ∃ ts, ts ∈ db.time_slots ∧ ts.slot_id = tt.slot_id ∧ c = mkClassRow tt ts := by
  simp only [qClassesRaw, List.mem_flatMap, List.mem_map, List.mem_filter, beq_iff_eq]
  constructor
  · rintro ⟨tt, htt, ts, ⟨hts, hsl⟩, rfl⟩
    exact ⟨tt, htt, ts, hts, hsl, rfl⟩
  · rintro ⟨tt, htt, ts, hts, hsl, rfl⟩
    exact ⟨tt, htt, ts, ⟨hts, hsl⟩, rfl⟩

theorem qClassesRaw_fields {db : DB} {tid day : String} {c : ClassRow}
    (h : c ∈ qClassesRaw db tid day) :
    strToLower c.absent_teacher_id = strToLower tid ∧
    strToUpper c.day_of_week = strToUpper day := by
  rcases mem_qClassesRaw.mp h with ⟨tt, htt, ts, _, _, rfl⟩
  rcases mem_absentEntries.mp htt with ⟨_, h1, h2, _⟩
  exact ⟨h1, h2⟩

theorem mem_qClasses {db : DB} {tid day : String} {c : ClassRow} :
    c ∈ qClasses db tid day ↔ c ∈ qClassesRaw db tid day := by
  simp [qClasses, List.mem_insertionSort]

theorem hasFreeRow_day_congr {db : DB} {d1 d2 : String} (slotId : Nat) (t : String)
    (h : strToUpper d1 = strToUpper d2) :
    hasFreeRow db d1 slotId t = hasFreeRow db d2 slotId t := by
  simp [hasFreeRow, h]

theorem hasBusyRow_day_congr {db : DB} {d1 d2 : String} (slotId : Nat) (t : String)
    (h : strToUpper d1 = strToUpper d2) :
    hasBusyRow db d1 slotId t = hasBusyRow db d2 slotId t := by
  simp [hasBusyRow, h]

/-- Unfolding one row of the candidate query: where it came from. -/
theorem mem_qSubsRaw_elim {db : DB} {tid day : String} {x : SubRow}
    (h : x ∈ qSubsRaw db tid day) :
    ∃ c ∈ qClassesRaw db tid day, ∃ s ∈ db.teacher_attendance,
      strToUpper (sqlTrim s.attendance) = "PRESENT" ∧
      strToLower s.teacher_id ≠ strToLower c.absent_teacher_id ∧
      (hasFreeRow db c.day_of_week c.slot_id s.teacher_id = true ∨
       hasBusyRow db c.day_of_week c.slot_id s.teacher_id = false) ∧
      ∃ codes detail, x = mkSubRow db c s codes detail := by
  simp only [qSubsRaw, List.mem_flatMap, List.mem_filter, Bool.and_eq_true,
    Bool.not_eq_true', beq_iff_eq, beq_eq_false_iff_ne] at h
  rcases h with ⟨c, hc, s, ⟨hs, hpres, hne⟩, hx⟩
  by_cases hav : (hasFreeRow db c.day_of_week c.slot_id s.teacher_id ||
      !hasBusyRow db c.day_of_week c.slot_id s.teacher_id) = true
  · rw [if_pos hav] at hx
    refine ⟨c, hc, s, hs, hpres, hne, ?_, ?_⟩
    · simpa only [Bool.or_eq_true, Bool.not_eq_true'] using hav
    · cases hfilter : (subjectsAgg db).filter
          (fun sa => strToLower sa.teacher_id == strToLower s.teacher_id) with
      | nil =>
        rw [hfilter] at hx
        have hx' : x ∈ [mkSubRow db c s "" ""] := hx
        exact ⟨"", "", List.mem_singleton.mp hx'⟩
      | cons sa sas =>
        rw [hfilter] at hx
        have hx' : x ∈ (sa :: sas).map
            (fun sa => mkSubRow db c s sa.subjects_codes sa.subjects_detail) := hx
        rcases List.mem_map.mp hx' with ⟨sa', _, rfl⟩
        exact ⟨sa'.subjects_codes, sa'.subjects_detail, rfl⟩
  · rw [if_neg hav] at hx
    exact absurd hx (List.not_mem_nil x)

/-- Producing one row of the candidate query from an eligible teacher. -/
theorem mem_qSubsRaw_intro {db : DB} {tid day : String} {c : ClassRow} {s : AttendanceRow}
    (hc : c ∈ qClassesRaw db tid day) (hs : s ∈ db.teacher_attendance)
    (hpres : strToUpper (sqlTrim s.attendance) = "PRESENT")
    (hne : strToLower s.teacher_id ≠ strToLower c.absent_teacher_id)
    (hav : hasFreeRow db c.day_of_week c.slot_id s.teacher_id = true ∨
           hasBusyRow db c.day_of_week c.slot_id s.teacher_id = false) :
    ∃ codes detail, mkSubRow db c s codes detail ∈ qSubsRaw db tid day := by
  have havb : (hasFreeRow db c.day_of_week c.slot_id s.teacher_id ||
      !hasBusyRow db c.day_of_week c.slot_id s.teacher_id) = true := by
    simp only [Bool.or_eq_true, Bool.not_eq_true']
    exact hav
  have key : ∃ codes detail, mkSubRow db c s codes detail ∈
      (if hasFreeRow db c.day_of_week c.slot_id s.teacher_id ||
        !hasBusyRow db c.day_of_week c.slot_id s.teacher_id then
          match (subjectsAgg db).filter
              (fun sa => strToLower sa.teacher_id == strToLower s.teacher_id) with
          | [] => [mkSubRow db c s "" ""]
          | sas => sas.map fun sa => mkSubRow db c s sa.subjects_codes sa.subjects_detail
        else []) := by
    rw [if_pos havb]
    cases hfilter : (subjectsAgg db).filter
        (fun sa => strToLower sa.teacher_id == strToLower s.teacher_id) with
    | nil => exact ⟨"", "", List.mem_singleton.mpr rfl⟩
    | cons sa sas =>
      exact ⟨sa.subjects_codes, sa.subjects_detail,
        List.mem_map.mpr ⟨sa, List.mem_cons_self sa sas, rfl⟩⟩
  rcases key with ⟨codes, detail, hmem⟩
  refine ⟨codes, detail, ?_⟩
  simp only [qSubsRaw, List.mem_flatMap, List.mem_filter, Bool.and_eq_true,
    Bool.not_eq_true', beq_iff_eq, beq_eq_false_iff_ne]
  exact ⟨c, hc, s, ⟨hs, hpres, hne⟩, hmem⟩

theorem mem_qSubs {db : DB} {tid day : String} {x : SubRow} :
    x ∈ qSubs db tid day ↔ x ∈ qSubsRaw db tid day := by
  simp [qSubs, List.mem_insertionSort]

/-! ## Facts about the first-occurrence grouping -/

theorem dedupByKey_subset : ∀ {l : List ClassRow} {seen : List (Nat × String)} {c : ClassRow},
    c ∈ dedupByKey l seen → c ∈ l
  | [], _, c => by intro h; exact absurd h (List.not_mem_nil c)
  | a :: l, seen, c => by
    unfold dedupByKey
    split
    · exact fun h => List.mem_cons_of_mem a (dedupByKey_subset h)
    · intro h
      rcases List.mem_cons.mp h with rfl | h
      · exact List.mem_cons_self _ _
      · exact List.mem_cons_of_mem a (dedupByKey_subset h)

/-- Each kept row is the first row of the list carrying its key. -/
theorem dedupByKey_first : ∀ {l : List ClassRow} {seen : List (Nat × String)} {c : ClassRow},
    c ∈ dedupByKey l seen →
      (c.slot_id, c.class_to_cover) ∉ seen ∧
      l.find? (fun y => y.slot_id == c.slot_id && y.class_to_cover == c.class_to_cover) =
        some c
  | [], _, c => by intro h; exact absurd h (List.not_mem_nil c)
  | a :: l, seen, c => by
    unfold dedupByKey
    split
    · rename_i hseen
      intro h
      obtain ⟨hns, hfind⟩ := dedupByKey_first h
      refine ⟨hns, ?_⟩
      rw [List.find?_cons]
      have hne : (a.slot_id == c.slot_id && a.class_to_cover == c.class_to_cover) = false := by
        by_contra hb
        have := eq_true_of_ne_false hb
        simp only [Bool.and_eq_true, beq_iff_eq] at this
        exact hns (by rw [← this.1, ← this.2]; exact hseen)
      rw [hne]
      exact hfind
    · rename_i hseen
      intro h
      rcases List.mem_cons.mp h with rfl | h
      · refine ⟨hseen, ?_⟩
        rw [List.find?_cons]
        have : (c.slot_id == c.slot_id && c.class_to_cover == c.class_to_cover) = true := by
          simp
        rw [this]
      · obtain ⟨hns, hfind⟩ := dedupByKey_first h
        have hkey : (c.slot_id, c.class_to_cover) ≠ (a.slot_id, a.class_to_cover) := by
          intro hk
          exact hns (hk ▸ List.mem_cons_self _ _)
        have hns' : (c.slot_id, c.class_to_cover) ∉ seen := fun hx =>
          hns (List.mem_cons_of_mem _ hx)
        refine ⟨hns', ?_⟩
        rw [List.find?_cons]
        have hne : (a.slot_id == c.slot_id && a.class_to_cover == c.class_to_cover) = false := by
          by_contra hb
          have := eq_true_of_ne_false hb
          simp only [Bool.and_eq_true, beq_iff_eq] at this
          exact hkey (by rw [this.1, this.2])
        rw [hne]
        exact hfind

/-- Every key of the list survives the grouping (unless already seen). -/
theorem dedupByKey_cover : ∀ {l : List ClassRow} {seen : List (Nat × String)} {c : ClassRow},
    c ∈ l →
      (c.slot_id, c.class_to_cover) ∈ seen ∨
      ∃ d ∈ dedupByKey l seen, d.slot_id = c.slot_id ∧ d.class_to_cover = c.class_to_cover
  | [], _, c => by intro h; exact absurd h (List.not_mem_nil c)
  | a :: l, seen, c => by
    intro h
    unfold dedupByKey
    rcases List.mem_cons.mp h with rfl | h
    · split
      · rename_i hseen
        exact Or.inl hseen
      · exact Or.inr ⟨c, List.mem_cons_self _ _, rfl, rfl⟩
    · split
      · rename_i hseen
        rcases @dedupByKey_cover l seen c h with hin | ⟨d, hd, h1, h2⟩
        · exact Or.inl hin
        · exact Or.inr ⟨d, hd, h1, h2⟩
      · rcases @dedupByKey_cover l ((a.slot_id, a.class_to_cover) :: seen) c h with
          hin | ⟨d, hd, h1, h2⟩
        · rcases List.mem_cons.mp hin with heq | hin
          · obtain ⟨h1, h2⟩ := Prod.mk.injEq .. ▸ heq
            exact Or.inr ⟨a, List.mem_cons_self _ _, h1.symm, h2.symm⟩
          · exact Or.inl hin
        · exact Or.inr ⟨d, List.mem_cons_of_mem a hd, h1, h2⟩

/-- The kept rows carry pairwise-distinct keys. -/
theorem dedupByKey_pairwise : ∀ {l : List ClassRow} {seen : List (Nat × String)},
    (dedupByKey l seen).Pairwise
      (fun c d => ¬(c.slot_id = d.slot_id ∧ c.class_to_cover = d.class_to_cover))
  | [], _ => List.Pairwise.nil
  | a :: l, seen => by
    unfold dedupByKey
    split
    · exact dedupByKey_pairwise
    · refine List.Pairwise.cons ?_ dedupByKey_pairwise
      intro d hd hkey
      obtain ⟨hns, _⟩ := dedupByKey_first hd
      exact hns (by rw [← hkey.1, ← hkey.2]; exact List.mem_cons_self _ _)

/-- With pairwise-distinct keys (and none already seen) the grouping keeps
every row. -/
theorem dedupByKey_eq_self : ∀ {l : List ClassRow} {seen : List (Nat × String)},
    (l.map fun c => (c.slot_id, c.class_to_cover)).Nodup →
    (∀ c ∈ l, (c.slot_id, c.class_to_cover) ∉ seen) → dedupByKey l seen = l
  | [], _, _, _ => rfl
  | a :: l, seen, hnd, hns => by
    unfold dedupByKey
    rw [if_neg (hns a (List.mem_cons_self _ _))]
    rw [List.map_cons, List.nodup_cons] at hnd
    refine congrArg (a :: ·) (dedupByKey_eq_self hnd.2 ?_)
    intro c hc hmem
    rcases List.mem_cons.mp hmem with heq | hmem
    · exact hnd.1 (heq ▸ List.mem_map.mpr ⟨c, hc, rfl⟩)
    · exact hns c (List.mem_cons_of_mem a hc) hmem

/-! ## Facts about the assembled schedule -/

theorem mem_buildSchedule {classes : List ClassRow} {subs : List SubRow}
    {slot : CoverageSlot} :
    slot ∈ buildSchedule classes subs ↔
      ∃ c ∈ dedupByKey classes [], slot = mkSlot subs c := by
  simp only [buildSchedule, List.mem_insertionSort, List.mem_map]
  constructor
  · rintro ⟨c, hc, rfl⟩
    exact ⟨c, hc, rfl⟩
  · rintro ⟨c, hc, rfl⟩
    exact ⟨c, hc, rfl⟩

theorem mem_slotSubs {subs : List SubRow} {c : ClassRow} {e : Candidate} :
    e ∈ slotSubs subs c ↔
      ∃ x ∈ subs, x.slot_id = c.slot_id ∧ x.class_to_cover = c.class_to_cover ∧
        e = mkCandidate x := by
  simp only [slotSubs, List.mem_map, List.mem_filter, Bool.and_eq_true, beq_iff_eq]
  constructor
  · rintro ⟨x, ⟨hx, h1, h2⟩, rfl⟩
    exact ⟨x, hx, h1, h2, rfl⟩
  · rintro ⟨x, hx, h1, h2, rfl⟩
    exact ⟨x, ⟨hx, h1, h2⟩, rfl⟩

/-! ## Branch behaviour of `findSubstitutes` over a pure store -/

theorem findSubstitutes_pure_not_found {db : DB} {rawId rawDay : String}
    (hid : jsTrim rawId ≠ "") (hday : normalizeDay rawDay ≠ "")
    (hnone : db.teacher_attendance.filter
      (fun a => strToLower a.teacher_id == strToLower (jsTrim rawId)) = []) :
    findSubstitutes (pureStore db) rawId rawDay =
      .ok { absentName := "Teacher ID: " ++ jsTrim rawId,
            absentTeacherSubjectDetail := "N/A", schedule := [],
            note := some "Teacher not found" } := by
  have hq : qAttendance db (jsTrim rawId) = [] := by simp [qAttendance, hnone]
  unfold findSubstitutes
  rw [if_neg (by simpa using hid), if_neg (by simpa using hday)]
  simp [pureStore, runQuery, hq]

theorem findSubstitutes_pure_not_absent {db : DB} {rawId rawDay : String}
    {trow : AttendanceRow} {rest : List AttendanceRow}
    (hid : jsTrim rawId ≠ "") (hday : normalizeDay rawDay ≠ "")
    (hatt : db.teacher_attendance.filter
      (fun a => strToLower a.teacher_id == strToLower (jsTrim rawId)) = trow :: rest)
    (habs : strToUpper (jsTrim trow.attendance) ≠ "ABSENT") :
    findSubstitutes (pureStore db) rawId rawDay =
      .ok { absentName := absentNameOf (jsTrim rawId) trow,
            absentTeacherSubjectDetail := (qAbsentTeacherInfo db (jsTrim rawId)).headD "N/A",
            schedule := [],
            note := some "Teacher is not marked as ABSENT in attendance table" } := by
  have hq : qAttendance db (jsTrim rawId) = [trow] := by simp [qAttendance, hatt]
  have hb : (strToUpper (jsTrim trow.attendance) == "ABSENT") = false := by simpa using habs
  unfold findSubstitutes
  rw [if_neg (by simpa using hid), if_neg (by simpa using hday)]
  simp [pureStore, runQuery, hq, hb]

theorem coveragePhase_pure {db : DB} {tid day n d : String} :
    coveragePhase ⟨db, none, none, none, none⟩ tid day n d =
      .ok { absentName := n, absentTeacherSubjectDetail := d,
            schedule := buildSchedule (qClasses db tid day) (qSubs db tid day),
            note := none } := by
  unfold coveragePhase
  simp only [pureStore, runQuery]
  by_cases hemp : (qClasses db tid day).isEmpty
  · rw [if_pos hemp]
    rw [List.isEmpty_iff.mp hemp]
    rfl
  · rw [if_neg hemp]

theorem findSubstitutes_pure_absent {db : DB} {rawId rawDay : String}
    {trow : AttendanceRow} {rest : List AttendanceRow}
    (hid : jsTrim rawId ≠ "") (hday : normalizeDay rawDay ≠ "")
    (hatt : db.teacher_attendance.filter
      (fun a => strToLower a.teacher_id == strToLower (jsTrim rawId)) = trow :: rest)
    (habs : strToUpper (jsTrim trow.attendance) = "ABSENT") :
    findSubstitutes (pureStore db) rawId rawDay =
      .ok { absentName := absentNameOf (jsTrim rawId) trow,
            absentTeacherSubjectDetail := (qAbsentTeacherInfo db (jsTrim rawId)).headD "N/A",
            schedule := buildSchedule (qClasses db (jsTrim rawId) (normalizeDay rawDay))
              (qSubs db (jsTrim rawId) (normalizeDay rawDay)),
            note := none } := by
  have hq : qAttendance db (jsTrim rawId) = [trow] := by simp [qAttendance, hatt]
  have hb : (strToUpper (jsTrim trow.attendance) == "ABSENT") = true := by simpa using habs
  unfold findSubstitutes
  rw [if_neg (by simpa using hid), if_neg (by simpa using hday)]
  simp [pureStore, runQuery, hq, hb, coveragePhase_pure]

/-- Any successful resolution carries either the empty schedule (one of the
short-circuit outcomes) or the assembled schedule of the coverage phase. -/
theorem findSubstitutes_pure_schedule {db : DB} {rawId rawDay : String} {r : Report}
    (h : findSubstitutes (pureStore db) rawId rawDay = .ok r) :
    r.schedule = [] ∨
    r.schedule = buildSchedule (qClasses db (jsTrim rawId) (normalizeDay rawDay))
      (qSubs db (jsTrim rawId) (normalizeDay rawDay)) := by
  by_cases h1 : jsTrim rawId = ""
  · rw [findSubstitutes, if_pos (by simpa using h1)] at h
    exact absurd h (by simp)
  by_cases h2 : normalizeDay rawDay = ""
  · rw [findSubstitutes, if_neg (by simpa using h1), if_pos (by simpa using h2)] at h
    exact absurd h (by simp)
  rcases hq : db.teacher_attendance.filter
      (fun a => strToLower a.teacher_id == strToLower (jsTrim rawId)) with _ | ⟨trow, rest⟩
  · rw [findSubstitutes_pure_not_found h1 h2 hq] at h
    obtain rfl := (Except.ok.injEq _ _).mp h
    exact Or.inl rfl
  · by_cases habs : strToUpper (jsTrim trow.attendance) = "ABSENT"
    · rw [findSubstitutes_pure_absent h1 h2 hq habs] at h
      obtain rfl := (Except.ok.injEq _ _).mp h
      exact Or.inr rfl
    · rw [findSubstitutes_pure_not_absent h1 h2 hq habs] at h
      obtain rfl := (Except.ok.injEq _ _).mp h
      exact Or.inl rfl

/-- The example resolution: evaluating the core on `exdb` yields `exReport`. -/
theorem exReport_eval :
    findSubstitutes (pureStore exdb) "T1" "Monday" = .ok exReport := by rfl

/-! ## Claim C8 (`normalizeDay`) -/

/-- C8, counterexample: the claim says a non-Thursday, non-empty input maps to
the upper-cased first three characters of **that string**; on an input with
leading whitespace the code instead trims first: `"  monday"` yields `"MON"`,
not `"  M"`. -/
theorem claim_C8_cex :
    normalizeDay "  monday" = "MON" ∧
    strTake (strToUpper "  monday") 3 = "  M" ∧
    normalizeDay "  monday" ≠ strTake (strToUpper "  monday") 3 := by
  refine ⟨by decide, by decide, by decide⟩

/-- C8 (amended): `normalizeDay` maps every recognized Thursday spelling
(case-insensitive, with surrounding whitespace) to `"THUR"`; every other
non-empty string maps to the upper-cased first three characters of its
*trimmed* form; empty input passes through unchanged. -/
theorem claim_C8 (s : String) :
    ((strToUpper (jsTrim s) = "THU" ∨ strToUpper (jsTrim s) = "THUR" ∨
        strToUpper (jsTrim s) = "THURS" ∨ strToUpper (jsTrim s) = "THURSDAY") →
      normalizeDay s = "THUR")
    ∧ (s ≠ "" →
        ¬(strToUpper (jsTrim s) = "THU" ∨ strToUpper (jsTrim s) = "THUR" ∨
          strToUpper (jsTrim s) = "THURS" ∨ strToUpper (jsTrim s) = "THURSDAY") →
        normalizeDay s = strTake (strToUpper (jsTrim s)) 3)
    ∧ normalizeDay "" = "" := by
  refine ⟨?_, ?_, rfl⟩
  · intro h
    have hs : s ≠ "" := by
      intro hrfl
      subst hrfl
      revert h
      decide
    have hmem : (["THU", "THUR", "THURS", "THURSDAY"].contains (strToUpper (jsTrim s)))
        = true := by
      simp only [List.contains, List.elem_iff, List.mem_cons, List.not_mem_nil, or_false]
      tauto
    unfold normalizeDay
    rw [if_neg (by simpa using hs), if_pos hmem]
  · intro hs hnot
    have hmem : (["THU", "THUR", "THURS", "THURSDAY"].contains (strToUpper (jsTrim s)))
        = false := by
      by_contra hb
      have hb' := eq_true_of_ne_false hb
      simp only [List.contains, List.elem_iff, List.mem_cons, List.not_mem_nil,
        or_false] at hb'
      exact hnot (by tauto)
    unfold normalizeDay
    rw [if_neg (by simpa using hs), if_neg (by rw [hmem]; exact Bool.false_ne_true)]

/-- C8, witness: one Thursday spelling and one ordinary day. -/
theorem claim_C8_witness :
    normalizeDay " thurs " = "THUR" ∧
    normalizeDay "monday" = strTake (strToUpper (jsTrim "monday")) 3 :=
  ⟨(claim_C8 " thurs ").1 (by decide), (claim_C8 "monday").2.1 (by decide) (by decide)⟩

/-! ## Claim C9 (`extractSubjectCode`) -/

/-- C9: `extractSubjectCode` returns `"N/A"` on empty input; otherwise, with
`s` the trimmed description, it returns the trimmed upper-cased first
`" - "`-segment when that consists solely of letters, digits and underscores,
else the upper-cased leading alphanumeric/underscore run of `s`, else
`"N/A"`; including the spec's concrete examples. -/
theorem claim_C9 (d : String) :
    (d = "" → extractSubjectCode d = "N/A")
    ∧ (d ≠ "" →
        ((((splitOnStr (jsTrim d) " - ").headD "") ≠ "" ∧
            isValidCode (strToUpper (jsTrim ((splitOnStr (jsTrim d) " - ").headD ""))) =
              true) →
          extractSubjectCode d =
            strToUpper (jsTrim ((splitOnStr (jsTrim d) " - ").headD "")))
        ∧ (¬(((splitOnStr (jsTrim d) " - ").headD "") ≠ "" ∧
            isValidCode (strToUpper (jsTrim ((splitOnStr (jsTrim d) " - ").headD ""))) =
              true) →
          (leadingWordRun (jsTrim d) ≠ "" →
            extractSubjectCode d = strToUpper (leadingWordRun (jsTrim d)))
          ∧ (leadingWordRun (jsTrim d) = "" → extractSubjectCode d = "N/A")))
    ∧ extractSubjectCode "MATH101 - Algebra" = "MATH101"
    ∧ extractSubjectCode "intro class" = "INTRO"
    ∧ extractSubjectCode "" = "N/A" := by
  refine ⟨?_, ?_, by decide, by decide, by decide⟩
  · rintro rfl
    rfl
  · intro hne
    have h0 : (d == "") = false := by simpa using hne
    constructor
    · rintro ⟨h1, h2⟩
      have hcond : ((((splitOnStr (jsTrim d) " - ").headD "") != "") &&
          isValidCode (strToUpper (jsTrim ((splitOnStr (jsTrim d) " - ").headD "")))) =
            true := by
        simp only [Bool.and_eq_true, bne_iff_ne]
        exact ⟨h1, h2⟩
      simp only [extractSubjectCode, h0, Bool.false_eq_true, if_false, hcond, if_true]
    · intro hnot
      have hcond : ((((splitOnStr (jsTrim d) " - ").headD "") != "") &&
          isValidCode (strToUpper (jsTrim ((splitOnStr (jsTrim d) " - ").headD "")))) =
            false := by
        rw [Bool.and_eq_false_iff]
        by_cases hf : ((splitOnStr (jsTrim d) " - ").headD "") = ""
        · exact Or.inl (by simpa using hf)
        · right
          by_contra hb
          exact hnot ⟨hf, eq_true_of_ne_false hb⟩
      constructor
      · intro hrun
        have hrunb : ((leadingWordRun (jsTrim d)) != "") = true := by simpa using hrun
        simp only [extractSubjectCode, h0, Bool.false_eq_true, if_false, hcond,
          hrunb, if_true]
      · intro hrun
        have hrunb : ((leadingWordRun (jsTrim d)) != "") = false := by simpa using hrun
        simp only [extractSubjectCode, h0, Bool.false_eq_true, if_false, hcond,
          hrunb]

/-- C9, witness: the segment branch, the fallback branch and the `"N/A"`
fallback, each at a concrete description. -/
theorem claim_C9_witness :
    extractSubjectCode "MATH101 - Algebra" =
      strToUpper (jsTrim ((splitOnStr (jsTrim "MATH101 - Algebra") " - ").headD "")) ∧
    extractSubjectCode "intro class" = strToUpper (leadingWordRun (jsTrim "intro class")) ∧
    extractSubjectCode "!!! - x" = "N/A" :=
  ⟨((claim_C9 "MATH101 - Algebra").2.1 (by decide)).1 (by decide),
   (((claim_C9 "intro class").2.1 (by decide)).2 (by decide)).1 (by decide),
   (((claim_C9 "!!! - x").2.1 (by decide)).2 (by decide)).2 (by decide)⟩

/-! ## Claim C5 (unknown teacher / teacher not absent) -/

/-- C5: resolving an unknown teacher id returns, without an error, the
`"Teacher ID: <id>"` fallback name, subject detail `"N/A"`, an empty schedule
and the `"Teacher not found"` note; resolving a known teacher not marked
`ABSENT` (trimmed, upper-cased) returns, without an error, the resolved name
and subject-detail summary, an empty schedule and the not-absent note —
regardless of that teacher's timetable entries. -/
theorem claim_C5 (db : DB) (rawId rawDay : String)
    (hid : jsTrim rawId ≠ "") (hday : normalizeDay rawDay ≠ "") :
    (db.teacher_attendance.filter
        (fun a => strToLower a.teacher_id == strToLower (jsTrim rawId)) = [] →
      findSubstitutes (pureStore db) rawId rawDay =
        .ok { absentName := "Teacher ID: " ++ jsTrim rawId,
              absentTeacherSubjectDetail := "N/A", schedule := [],
              note := some "Teacher not found" })
    ∧ (∀ trow rest,
        db.teacher_attendance.filter
          (fun a => strToLower a.teacher_id == strToLower (jsTrim rawId)) = trow :: rest →
        strToUpper (jsTrim trow.attendance) ≠ "ABSENT" →
        findSubstitutes (pureStore db) rawId rawDay =
          .ok { absentName := absentNameOf (jsTrim rawId) trow,
                absentTeacherSubjectDetail :=
                  (qAbsentTeacherInfo db (jsTrim rawId)).headD "N/A",
                schedule := [],
                note := some "Teacher is not marked as ABSENT in attendance table" }) :=
  ⟨fun h => findSubstitutes_pure_not_found hid hday h,
   fun _ _ h habs => findSubstitutes_pure_not_absent hid hday h habs⟩

/-- C5, witness: the unknown teacher `"T9"` and the known teacher `"T4"`
(marked `"SICK"`, so not absent) on the example store. -/
theorem claim_C5_witness :
    findSubstitutes (pureStore exdb) "T9" "Monday" =
      .ok { absentName := "Teacher ID: " ++ jsTrim "T9",
            absentTeacherSubjectDetail := "N/A", schedule := [],
            note := some "Teacher not found" } ∧
    findSubstitutes (pureStore exdb) "T4" "Monday" =
      .ok { absentName := absentNameOf (jsTrim "T4") ⟨"T4", "Dave", "SICK"⟩,
            absentTeacherSubjectDetail := (qAbsentTeacherInfo exdb (jsTrim "T4")).headD "N/A",
            schedule := [],
            note := some "Teacher is not marked as ABSENT in attendance table" } :=
  ⟨(claim_C5 exdb "T9" "Monday" (by decide) (by decide)).1 (by decide),
   (claim_C5 exdb "T4" "Monday" (by decide) (by decide)).2
     ⟨"T4", "Dave", "SICK"⟩ [] (by decide) (by decide)⟩

/-! ## Claim C6 (absent teacher without classes that day) -/

/-- C6: resolving a known, absent teacher with zero non-free timetable entries
for the target day returns, without an error, the teacher's name and subject
detail, an empty schedule and no note. -/
theorem claim_C6 (db : DB) (rawId rawDay : String) (trow : AttendanceRow)
    (rest : List AttendanceRow)
    (hid : jsTrim rawId ≠ "") (hday : normalizeDay rawDay ≠ "")
    (hatt : db.teacher_attendance.filter
      (fun a => strToLower a.teacher_id == strToLower (jsTrim rawId)) = trow :: rest)
    (habs : strToUpper (jsTrim trow.attendance) = "ABSENT")
    (hempty : absentEntries db (jsTrim rawId) (normalizeDay rawDay) = []) :
    findSubstitutes (pureStore db) rawId rawDay =
      .ok { absentName := absentNameOf (jsTrim rawId) trow,
            absentTeacherSubjectDetail := (qAbsentTeacherInfo db (jsTrim rawId)).headD "N/A",
            schedule := [], note := none } := by
  have h := findSubstitutes_pure_absent hid hday hatt habs
  have hcl : qClasses db (jsTrim rawId) (normalizeDay rawDay) = [] := by
    simp [qClasses, qClassesRaw, hempty]
  rw [h, hcl]
  rfl

/-- C6, witness: Alice is absent but has no Friday entries. -/
theorem claim_C6_witness :
    findSubstitutes (pureStore exdb) "T1" "Friday" =
      .ok { absentName := absentNameOf (jsTrim "T1") ⟨"T1", "Alice", "ABSENT"⟩,
            absentTeacherSubjectDetail := (qAbsentTeacherInfo exdb (jsTrim "T1")).headD "N/A",
            schedule := [], note := none } :=
  claim_C6 exdb "T1" "Friday" ⟨"T1", "Alice", "ABSENT"⟩ []
    (by decide) (by decide) (by decide) (by decide) (by decide)

/-! ## Claim C7 (collaborator failures) -/

/-- C7, counterexample: the claim says any failing read surfaces as the single
wrapped failure, but a failing attendance read propagates its own error
unwrapped — the attendance and subject-detail queries sit outside the
`try`/`catch` that produces `"Database query failed during substitution
search."`. -/
theorem claim_C7_cex :
    findSubstitutes ⟨exdb, some "connection lost", none, none, none⟩ "T1" "Monday" =
      .error "connection lost" ∧
    "connection lost" ≠ "Database query failed during substitution search." := by
  exact ⟨rfl, by decide⟩

/-- C7 (amended): every failing read makes the resolution raise an error, with
no report returned; failures of the coverage (`qClasses`) and candidate
(`qSubs`) reads are wrapped into the single failure `"Database query failed
during substitution search."`, while failures of the attendance and
subject-detail reads propagate unwrapped. -/
theorem claim_C7 (db : DB) (rawId rawDay e : String)
    (hid : jsTrim rawId ≠ "") (hday : normalizeDay rawDay ≠ "") :
    (∀ i c s, findSubstitutes ⟨db, some e, i, c, s⟩ rawId rawDay = .error e)
    ∧ (∀ c s trow rest,
        db.teacher_attendance.filter
          (fun a => strToLower a.teacher_id == strToLower (jsTrim rawId)) = trow :: rest →
        findSubstitutes ⟨db, none, some e, c, s⟩ rawId rawDay = .error e)
    ∧ (∀ s trow rest,
        db.teacher_attendance.filter
          (fun a => strToLower a.teacher_id == strToLower (jsTrim rawId)) = trow :: rest →
        strToUpper (jsTrim trow.attendance) = "ABSENT" →
        findSubstitutes ⟨db, none, none, some e, s⟩ rawId rawDay =
          .error "Database query failed during substitution search.")
    ∧ (∀ trow rest,
        db.teacher_attendance.filter
          (fun a => strToLower a.teacher_id == strToLower (jsTrim rawId)) = trow :: rest →
        strToUpper (jsTrim trow.attendance) = "ABSENT" →
        qClasses db (jsTrim rawId) (normalizeDay rawDay) ≠ [] →
        findSubstitutes ⟨db, none, none, none, some e⟩ rawId rawDay =
          .error "Database query failed during substitution search.") := by
  refine ⟨?_, ?_, ?_, ?_⟩
  · intro i c s
    unfold findSubstitutes
    rw [if_neg (by simpa using hid), if_neg (by simpa using hday)]
    rfl
  · intro c s trow rest hatt
    have hq : qAttendance db (jsTrim rawId) = [trow] := by simp [qAttendance, hatt]
    unfold findSubstitutes
    rw [if_neg (by simpa using hid), if_neg (by simpa using hday)]
    simp [runQuery, hq]
  · intro s trow rest hatt habs
    have hq : qAttendance db (jsTrim rawId) = [trow] := by simp [qAttendance, hatt]
    have hb : (strToUpper (jsTrim trow.attendance) == "ABSENT") = true := by
      simpa using habs
    unfold findSubstitutes coveragePhase
    rw [if_neg (by simpa using hid), if_neg (by simpa using hday)]
    simp [runQuery, hq, hb]
  · intro trow rest hatt habs hcl
    have hq : qAttendance db (jsTrim rawId) = [trow] := by simp [qAttendance, hatt]
    have hb : (strToUpper (jsTrim trow.attendance) == "ABSENT") = true := by
      simpa using habs
    have hemp : (qClasses db (jsTrim rawId) (normalizeDay rawDay)).isEmpty = false := by
      rcases hcls : qClasses db (jsTrim rawId) (normalizeDay rawDay) with _ | ⟨x, xs⟩
      · exact absurd hcls hcl
      · rfl
    unfold findSubstitutes coveragePhase
    rw [if_neg (by simpa using hid), if_neg (by simpa using hday)]
    simp [runQuery, hq, hb, hemp]

/-- C7, witness: a failing coverage read on the example store is wrapped. -/
theorem claim_C7_witness :
    findSubstitutes ⟨exdb, none, none, some "boom", none⟩ "T1" "Monday" =
      .error "Database query failed during substitution search." :=
  (claim_C7 exdb "T1" "Monday" "boom" (by decide) (by decide)).2.2.1 none
    ⟨"T1", "Alice", "ABSENT"⟩ [] (by decide) (by decide)

/-! ## Claim C1 (candidate-list membership) -/

/-- C1: in any successful resolution, a coverage slot's candidate list contains
teacher `t` exactly when some attendance row for `t` is marked `PRESENT`
(trimmed, upper-cased), `t` differs case-insensitively from the absent
teacher's identifier, and for this day and slot `t` either has an explicit
free timetable entry or has no timetable entry at all; in particular the
absent teacher and anyone with an explicit busy entry for the slot never
appear. -/
theorem claim_C1 (db : DB) (rawId rawDay : String) (r : Report)
    (h : findSubstitutes (pureStore db) rawId rawDay = .ok r) :
    ∀ slot ∈ r.schedule, ∀ t : String,
      (∃ e ∈ slot.available_substitutes, e.substitute_id = t) ↔
      (∃ s ∈ db.teacher_attendance, s.teacher_id = t ∧
        strToUpper (sqlTrim s.attendance) = "PRESENT" ∧
        strToLower t ≠ strToLower (jsTrim rawId) ∧
        (hasFreeRow db (normalizeDay rawDay) slot.slot_id t = true ∨
         hasBusyRow db (normalizeDay rawDay) slot.slot_id t = false)) := by
  rcases findSubstitutes_pure_schedule h with hsch | hsch
  · rw [hsch]
    intro slot hs
    exact absurd hs (List.not_mem_nil slot)
  · rw [hsch]
    intro slot hslot t
    rcases mem_buildSchedule.mp hslot with ⟨c0, hc0, rfl⟩
    have hc0raw : c0 ∈ qClassesRaw db (jsTrim rawId) (normalizeDay rawDay) :=
      mem_qClasses.mp (dedupByKey_subset hc0)
    obtain ⟨hc0id, hc0day⟩ := qClassesRaw_fields hc0raw
    constructor
    · rintro ⟨e, he, rfl⟩
      rcases mem_slotSubs.mp he with ⟨x, hx, hxs, hxc, rfl⟩
      rcases mem_qSubsRaw_elim (mem_qSubs.mp hx) with
        ⟨c, hc, s, hs, hpres, hne, hav, codes, detail, rfl⟩
      obtain ⟨hcid, hcday⟩ := qClassesRaw_fields hc
      refine ⟨s, hs, rfl, hpres, ?_, ?_⟩
      · rw [← hcid]
        exact hne
      · rw [hasFreeRow_day_congr _ _ hcday, hasBusyRow_day_congr _ _ hcday] at hav
        have hcsl : c.slot_id = c0.slot_id := hxs
        rw [hcsl] at hav
        exact hav
    · rintro ⟨s, hs, rfl, hpres, hne, hav⟩
      have hne' : strToLower s.teacher_id ≠ strToLower c0.absent_teacher_id := by
        rw [hc0id]
        exact hne
      have hav' : hasFreeRow db c0.day_of_week c0.slot_id s.teacher_id = true ∨
          hasBusyRow db c0.day_of_week c0.slot_id s.teacher_id = false := by
        rw [hasFreeRow_day_congr _ _ hc0day, hasBusyRow_day_congr _ _ hc0day]
        exact hav
      obtain ⟨codes, detail, hmem⟩ := mem_qSubsRaw_intro hc0raw hs hpres hne' hav'
      exact ⟨mkCandidate (mkSubRow db c0 s codes detail),
        mem_slotSubs.mpr ⟨mkSubRow db c0 s codes detail, mem_qSubs.mpr hmem, rfl, rfl, rfl⟩,
        rfl⟩

/-- C1, witness: in the example resolution's first slot, Carol (`"T3"`,
present, no entry for Monday slot 1) is a candidate; the equivalence is
instantiated there. -/
theorem claim_C1_witness :
    (∃ e ∈ exSlot1.available_substitutes, e.substitute_id = "T3") ↔
    (∃ s ∈ exdb.teacher_attendance, s.teacher_id = "T3" ∧
      strToUpper (sqlTrim s.attendance) = "PRESENT" ∧
      strToLower "T3" ≠ strToLower (jsTrim "T1") ∧
      (hasFreeRow exdb (normalizeDay "Monday") exSlot1.slot_id "T3" = true ∨
       hasBusyRow exdb (normalizeDay "Monday") exSlot1.slot_id "T3" = false)) :=
  claim_C1 exdb "T1" "Monday" exReport rfl exSlot1 (by decide) "T3"

/-! ## Claim C2 (candidate ordering) -/

/-- C2: within every coverage slot's candidate list, best-fit entries precede
good-fit entries, and within the same tier names are ascending (embedded
collation `strLe`). -/
theorem claim_C2 (db : DB) (rawId rawDay : String) (r : Report)
    (h : findSubstitutes (pureStore db) rawId rawDay = .ok r) :
    ∀ slot ∈ r.schedule,
      slot.available_substitutes.Pairwise (fun e1 e2 =>
        (e2.priority = "BEST FIT (Same Subject)" →
          e1.priority = "BEST FIT (Same Subject)") ∧
        (e1.priority = e2.priority →
          strLe e1.substitute_name e2.substitute_name = true)) := by
  rcases findSubstitutes_pure_schedule h with hsch | hsch
  · rw [hsch]
    intro slot hs
    exact absurd hs (List.not_mem_nil slot)
  · rw [hsch]
    intro slot hslot
    rcases mem_buildSchedule.mp hslot with ⟨c0, _, rfl⟩
    have hsorted : (qSubs db (jsTrim rawId) (normalizeDay rawDay)).Pairwise subLe :=
      List.sorted_insertionSort subLe _
    have hfil : (((qSubs db (jsTrim rawId) (normalizeDay rawDay)).filter fun s =>
        s.slot_id == c0.slot_id && s.class_to_cover == c0.class_to_cover)).Pairwise subLe :=
      List.Pairwise.sublist (List.filter_sublist _) hsorted
    show ((((qSubs db (jsTrim rawId) (normalizeDay rawDay)).filter fun s =>
        s.slot_id == c0.slot_id &&
          s.class_to_cover == c0.class_to_cover)).map mkCandidate).Pairwise _
    rw [List.pairwise_map]
    refine List.Pairwise.imp_of_mem ?_ hfil
    intro a b ha hb hab
    have hasl : a.slot_id = c0.slot_id := by
      have := (List.mem_filter.mp ha).2
      simp only [Bool.and_eq_true, beq_iff_eq] at this
      exact this.1
    have hbsl : b.slot_id = c0.slot_id := by
      have := (List.mem_filter.mp hb).2
      simp only [Bool.and_eq_true, beq_iff_eq] at this
      exact this.1
    rcases hab with hlt | ⟨_, hinner⟩
    · exfalso
      omega
    · rcases hinner with hrlt | ⟨hreq, hname⟩
      · constructor
        · intro hb2
          exfalso
          have hb2' : b.substitution_priority = "BEST FIT (Same Subject)" := hb2
          have hbb : bestRank b.substitution_priority = 0 := by
            unfold bestRank
            rw [if_pos hb2']
          omega
        · intro heq
          exfalso
          have heq' : a.substitution_priority = b.substitution_priority := heq
          rw [heq'] at hrlt
          omega
      · constructor
        · intro hb2
          have hb2' : b.substitution_priority = "BEST FIT (Same Subject)" := hb2
          have hbb : bestRank b.substitution_priority = 0 := by
            unfold bestRank
            rw [if_pos hb2']
          show a.substitution_priority = "BEST FIT (Same Subject)"
          by_contra hane
          have haa : bestRank a.substitution_priority = 1 := by
            unfold bestRank
            rw [if_neg hane]
          omega
        · intro _
          exact hname

/-- C2, witness: the ordering property at the example resolution's first
slot (Bob, best fit, precedes Carol, good fit). -/
theorem claim_C2_witness :
    exSlot1.available_substitutes.Pairwise (fun e1 e2 =>
      (e2.priority = "BEST FIT (Same Subject)" →
        e1.priority = "BEST FIT (Same Subject)") ∧
      (e1.priority = e2.priority →
        strLe e1.substitute_name e2.substitute_name = true)) :=
  claim_C2 exdb "T1" "Monday" exReport rfl exSlot1 (by decide)

/-! ## Claim C3 (fitness tier) -/

/-- C3: a candidate's tier is best fit exactly when the candidate has a
subject assignment whose code (SQL-trimmed, upper-cased) equals the
upper-cased segment of the slot's class description before `" - "`; otherwise
the tier is good fit. -/
theorem claim_C3 (db : DB) (rawId rawDay : String) (r : Report)
    (h : findSubstitutes (pureStore db) rawId rawDay = .ok r) :
    ∀ slot ∈ r.schedule, ∀ e ∈ slot.available_substitutes,
      (e.priority = "BEST FIT (Same Subject)" ∨
        e.priority = "GOOD FIT (Free, Any Subject)") ∧
      (e.priority = "BEST FIT (Same Subject)" ↔
        ∃ tsa ∈ db.teacher_subject_assignment,
          strToLower tsa.teacher_id = strToLower e.substitute_id ∧
          strToUpper (sqlTrim tsa.subject_code) =
            strToUpper (substringIndex1 slot.class_info " - ")) := by
  rcases findSubstitutes_pure_schedule h with hsch | hsch
  · rw [hsch]
    intro slot hs
    exact absurd hs (List.not_mem_nil slot)
  · rw [hsch]
    intro slot hslot e he
    rcases mem_buildSchedule.mp hslot with ⟨c0, _, rfl⟩
    rcases mem_slotSubs.mp he with ⟨x, hx, hxs, hxc, rfl⟩
    rcases mem_qSubsRaw_elim (mem_qSubs.mp hx) with
      ⟨c, hc, s, hs, hpres, hne, hav, codes, detail, rfl⟩
    have hcc : c.class_to_cover = c0.class_to_cover := hxc
    by_cases hcond : (db.teacher_subject_assignment.any fun tsa =>
        strToLower tsa.teacher_id == strToLower s.teacher_id &&
        strToUpper (sqlTrim tsa.subject_code) ==
          strToUpper (substringIndex1 c.class_to_cover " - ")) = true
    · have hp : (mkCandidate (mkSubRow db c s codes detail)).priority =
          "BEST FIT (Same Subject)" := by
        show (if _ then _ else _) = _
        rw [if_pos hcond]
      refine ⟨Or.inl hp, ?_⟩
      rw [hp]
      refine ⟨fun _ => ?_, fun _ => rfl⟩
      rcases List.any_eq_true.mp hcond with ⟨tsa, htsa, hb⟩
      simp only [Bool.and_eq_true, beq_iff_eq] at hb
      refine ⟨tsa, htsa, hb.1, ?_⟩
      rw [hb.2, hcc]
      rfl
    · have hp : (mkCandidate (mkSubRow db c s codes detail)).priority =
          "GOOD FIT (Free, Any Subject)" := by
        show (if _ then _ else _) = _
        rw [if_neg hcond]
      refine ⟨Or.inr hp, ?_⟩
      rw [hp]
      constructor
      · intro hgb
        exact absurd hgb (by decide)
      · rintro ⟨tsa, htsa, h1, h2⟩
        exfalso
        apply hcond
        refine List.any_eq_true.mpr ⟨tsa, htsa, ?_⟩
        simp only [Bool.and_eq_true, beq_iff_eq]
        have h2' : strToUpper (sqlTrim tsa.subject_code) =
            strToUpper (substringIndex1 c0.class_to_cover " - ") := h2
        rw [← hcc] at h2'
        exact ⟨h1, h2'⟩

/-- C3, witness: Bob is a best fit for the MATH101 slot; the equivalence is
instantiated at that candidate. -/
theorem claim_C3_witness :
    ((⟨"T2", "Bob", "BEST FIT (Same Subject)", "MATH101",
        "MATH101 - Algebra"⟩ : Candidate).priority = "BEST FIT (Same Subject)" ∨
      (⟨"T2", "Bob", "BEST FIT (Same Subject)", "MATH101",
        "MATH101 - Algebra"⟩ : Candidate).priority = "GOOD FIT (Free, Any Subject)") ∧
    ((⟨"T2", "Bob", "BEST FIT (Same Subject)", "MATH101",
        "MATH101 - Algebra"⟩ : Candidate).priority = "BEST FIT (Same Subject)" ↔
      ∃ tsa ∈ exdb.teacher_subject_assignment,
        strToLower tsa.teacher_id =
          strToLower (⟨"T2", "Bob", "BEST FIT (Same Subject)", "MATH101",
            "MATH101 - Algebra"⟩ : Candidate).substitute_id ∧
        strToUpper (sqlTrim tsa.subject_code) =
          strToUpper (substringIndex1 exSlot1.class_info " - ")) :=
  claim_C3 exdb "T1" "Monday" exReport rfl exSlot1 (by decide)
    ⟨"T2", "Bob", "BEST FIT (Same Subject)", "MATH101", "MATH101 - Algebra"⟩ (by decide)

/-! ## Claim C10 (schedule entries originate from the coverage query) -/

/-- C10: every coverage slot's key comes from the absent teacher's own
coverage query; every attached candidate entry stems from a candidate row
carrying exactly that key; and a candidate row whose key matches no coverage
row is attached to no slot of the schedule. -/
theorem claim_C10 (db : DB) (rawId rawDay : String) (r : Report)
    (h : findSubstitutes (pureStore db) rawId rawDay = .ok r) :
    (∀ slot ∈ r.schedule, ∃ c ∈ qClasses db (jsTrim rawId) (normalizeDay rawDay),
        slot.slot_id = c.slot_id ∧ slot.class_info = c.class_to_cover)
    ∧ (∀ slot ∈ r.schedule, ∀ e ∈ slot.available_substitutes,
        ∃ x ∈ qSubs db (jsTrim rawId) (normalizeDay rawDay),
          x.slot_id = slot.slot_id ∧ x.class_to_cover = slot.class_info ∧
          e = mkCandidate x)
    ∧ (∀ x ∈ qSubs db (jsTrim rawId) (normalizeDay rawDay),
        (∀ c ∈ qClasses db (jsTrim rawId) (normalizeDay rawDay),
          ¬(c.slot_id = x.slot_id ∧ c.class_to_cover = x.class_to_cover)) →
        ∀ slot ∈ r.schedule,
          ¬(slot.slot_id = x.slot_id ∧ slot.class_info = x.class_to_cover)) := by
  rcases findSubstitutes_pure_schedule h with hsch | hsch
  · rw [hsch]
    refine ⟨?_, ?_, ?_⟩
    · intro slot hs
      exact absurd hs (List.not_mem_nil slot)
    · intro slot hs
      exact absurd hs (List.not_mem_nil slot)
    · intro x _ _ slot hs
      exact absurd hs (List.not_mem_nil slot)
  · rw [hsch]
    refine ⟨?_, ?_, ?_⟩
    · intro slot hslot
      rcases mem_buildSchedule.mp hslot with ⟨c0, hc0, rfl⟩
      exact ⟨c0, dedupByKey_subset hc0, rfl, rfl⟩
    · intro slot hslot e he
      rcases mem_buildSchedule.mp hslot with ⟨c0, _, rfl⟩
      rcases mem_slotSubs.mp he with ⟨x, hx, h1, h2, rfl⟩
      exact ⟨x, hx, h1, h2, rfl⟩
    · intro x _ hno slot hslot hk
      rcases mem_buildSchedule.mp hslot with ⟨c0, hc0, rfl⟩
      exact hno c0 (dedupByKey_subset hc0) ⟨hk.1, hk.2⟩

/-- C10, witness: the second example slot's key comes from the coverage
query. -/
theorem claim_C10_witness :
    ∃ c ∈ qClasses exdb (jsTrim "T1") (normalizeDay "Monday"),
      exSlot2.slot_id = c.slot_id ∧ exSlot2.class_info = c.class_to_cover :=
  (claim_C10 exdb "T1" "Monday" exReport rfl).1 exSlot2 (by decide)

/-! ## Claim C4 (schedule shape) -/

/-- When each entry matches exactly one time slot, the keys of the joined
coverage rows are exactly the keys of the timetable entries, in order. -/
theorem flatMap_classRow_key (db : DB) : ∀ l : List TimetableRow,
    (∀ tt ∈ l, (db.time_slots.filter fun ts => ts.slot_id == tt.slot_id).length = 1) →
    ((l.flatMap fun tt =>
        (db.time_slots.filter fun ts => ts.slot_id == tt.slot_id).map (mkClassRow tt)).map
      fun c => (c.slot_id, c.class_to_cover)) =
      l.map fun tt => (tt.slot_id, tt.activity_description)
  | [], _ => rfl
  | a :: l, hall => by
    obtain ⟨ts0, hts0⟩ := List.length_eq_one.mp (hall a (List.mem_cons_self _ _))
    have ih := flatMap_classRow_key db l (fun tt h => hall tt (List.mem_cons_of_mem _ h))
    simp only [List.flatMap_cons, List.map_append, List.map_cons, List.map_nil, hts0]
    rw [ih]
    rfl

/-- C4: for a known, absent teacher, the schedule is sorted ascending by slot
identifier; with pairwise-distinct (slot id, class description) keys over the
day's non-free entries (each entry naming exactly one time slot), the schedule
has exactly one coverage slot per entry; and in general each coverage slot
keeps exactly the metadata of the *first* coverage row carrying its key. -/
theorem claim_C4 (db : DB) (rawId rawDay : String) (r : Report) (trow : AttendanceRow)
    (rest : List AttendanceRow)
    (h : findSubstitutes (pureStore db) rawId rawDay = .ok r)
    (hatt : db.teacher_attendance.filter
      (fun a => strToLower a.teacher_id == strToLower (jsTrim rawId)) = trow :: rest)
    (habs : strToUpper (jsTrim trow.attendance) = "ABSENT")
    (hSlots : ∀ tt ∈ absentEntries db (jsTrim rawId) (normalizeDay rawDay),
      (db.time_slots.filter fun ts => ts.slot_id == tt.slot_id).length = 1) :
    (r.schedule.Pairwise fun a b => a.slot_id ≤ b.slot_id)
    ∧ ((absentEntries db (jsTrim rawId) (normalizeDay rawDay)).Pairwise
        (fun t1 t2 => ¬(t1.slot_id = t2.slot_id ∧
          t1.activity_description = t2.activity_description)) →
        r.schedule.length = (absentEntries db (jsTrim rawId) (normalizeDay rawDay)).length)
    ∧ (∀ slot ∈ r.schedule, ∃ c,
        (qClasses db (jsTrim rawId) (normalizeDay rawDay)).find?
          (fun y => y.slot_id == slot.slot_id && y.class_to_cover == slot.class_info) =
            some c ∧
        slot.slot_id = c.slot_id ∧ slot.slot = c.time_range ∧
        slot.class_info = c.class_to_cover ∧
        slot.subject = extractSubjectCode c.class_to_cover ∧
        slot.room = (if c.room_location = "" then none else some c.room_location) ∧
        slot.is_lab = c.is_lab)
    ∧ (r.schedule.Pairwise fun s1 s2 =>
        ¬(s1.slot_id = s2.slot_id ∧ s1.class_info = s2.class_info)) := by
  have hid : jsTrim rawId ≠ "" := by
    intro hz
    rw [findSubstitutes, if_pos (by simpa using hz)] at h
    exact absurd h (by simp)
  have hday : normalizeDay rawDay ≠ "" := by
    intro hz
    rw [findSubstitutes, if_neg (by simpa using hid), if_pos (by simpa using hz)] at h
    exact absurd h (by simp)
  have hrep := findSubstitutes_pure_absent hid hday hatt habs
  rw [h] at hrep
  obtain hr := (Except.ok.injEq _ _).mp hrep
  have hsch : r.schedule =
      buildSchedule (qClasses db (jsTrim rawId) (normalizeDay rawDay))
        (qSubs db (jsTrim rawId) (normalizeDay rawDay)) := by
    rw [hr]
  have hkeyeq : ((qClassesRaw db (jsTrim rawId) (normalizeDay rawDay)).map
      fun c => (c.slot_id, c.class_to_cover)) =
      (absentEntries db (jsTrim rawId) (normalizeDay rawDay)).map
        fun tt => (tt.slot_id, tt.activity_description) :=
    flatMap_classRow_key db _ hSlots
  refine ⟨?_, ?_, ?_, ?_⟩
  · rw [hsch]
    exact List.sorted_insertionSort slotLe _
  · intro hdist
    have hnodupE : ((absentEntries db (jsTrim rawId) (normalizeDay rawDay)).map
        fun tt => (tt.slot_id, tt.activity_description)).Nodup := by
      refine List.pairwise_map.mpr (hdist.imp ?_)
      intro t1 t2 hne heq
      exact hne ⟨congrArg Prod.fst heq, congrArg Prod.snd heq⟩
    have hnodupRaw : ((qClassesRaw db (jsTrim rawId) (normalizeDay rawDay)).map
        fun c => (c.slot_id, c.class_to_cover)).Nodup := hkeyeq ▸ hnodupE
    have hpermKeys : ((qClasses db (jsTrim rawId) (normalizeDay rawDay)).map
        fun c => (c.slot_id, c.class_to_cover)).Perm
          ((qClassesRaw db (jsTrim rawId) (normalizeDay rawDay)).map
            fun c => (c.slot_id, c.class_to_cover)) :=
      (List.perm_insertionSort classLe _).map _
    have hnodupSorted : ((qClasses db (jsTrim rawId) (normalizeDay rawDay)).map
        fun c => (c.slot_id, c.class_to_cover)).Nodup :=
      hpermKeys.nodup_iff.mpr hnodupRaw
    have hded : dedupByKey (qClasses db (jsTrim rawId) (normalizeDay rawDay)) [] =
        qClasses db (jsTrim rawId) (normalizeDay rawDay) :=
      dedupByKey_eq_self hnodupSorted (fun c _ hmem => absurd hmem (List.not_mem_nil _))
    have hlen1 : r.schedule.length =
        (dedupByKey (qClasses db (jsTrim rawId) (normalizeDay rawDay)) []).length := by
      rw [hsch]
      simp [buildSchedule]
    have hlen2 : (qClasses db (jsTrim rawId) (normalizeDay rawDay)).length =
        (qClassesRaw db (jsTrim rawId) (normalizeDay rawDay)).length :=
      (List.perm_insertionSort classLe _).length_eq
    have hlen3 : (qClassesRaw db (jsTrim rawId) (normalizeDay rawDay)).length =
        (absentEntries db (jsTrim rawId) (normalizeDay rawDay)).length := by
      have := congrArg List.length hkeyeq
      simpa using this
    rw [hlen1, hded, hlen2, hlen3]
  · intro slot hslot
    rw [hsch] at hslot
    rcases mem_buildSchedule.mp hslot with ⟨c0, hc0, rfl⟩
    obtain ⟨_, hfind⟩ := dedupByKey_first hc0
    exact ⟨c0, hfind, rfl, rfl, rfl, rfl, rfl, rfl⟩
  · rw [hsch]
    have hdk : (dedupByKey (qClasses db (jsTrim rawId) (normalizeDay rawDay)) []).Pairwise
        (fun c d => ¬(c.slot_id = d.slot_id ∧ c.class_to_cover = d.class_to_cover)) :=
      dedupByKey_pairwise
    have hmap : ((dedupByKey (qClasses db (jsTrim rawId) (normalizeDay rawDay)) []).map
        (mkSlot (qSubs db (jsTrim rawId) (normalizeDay rawDay)))).Pairwise
          (fun s1 s2 => ¬(s1.slot_id = s2.slot_id ∧ s1.class_info = s2.class_info)) := by
      refine List.pairwise_map.mpr (hdk.imp ?_)
      intro c d hne hkey
      exact hne ⟨hkey.1, hkey.2⟩
    exact (List.Perm.pairwise_iff (fun hne hk => hne ⟨hk.1.symm, hk.2.symm⟩)
      (List.perm_insertionSort slotLe _)).mpr hmap

/-- C4, witness: Alice has two distinct Monday entries and the example report
has exactly two coverage slots. -/
theorem claim_C4_witness :
    exReport.schedule.length =
      (absentEntries exdb (jsTrim "T1") (normalizeDay "Monday")).length :=
  (claim_C4 exdb "T1" "Monday" exReport ⟨"T1", "Alice", "ABSENT"⟩ [] rfl
    (by decide) (by decide) (by decide)).2.1 (by decide)

end TeacherSub
